import Mathlib

/-!
Shallow embedding of the db-connect client (`src/index.ts` of
cloudflare/db-connect): the Command and DbConnect initializers, the
credential-header construction, and the HttpClient caching fetch layer
(initMerge, cacheKey, cacheHeader, fetchOrigin, fetch) together with the
platform pieces they use (header mappings with JS object-assign semantics,
the Fetch Response/Request constructors, URL resolution, and the SHA-256
digest used for POST cache keys).

JavaScript objects with string keys are modelled as association lists in
insertion order; property assignment replaces an existing key in place and
appends a fresh one.  Optional / possibly-undefined values are `Option`.
JS truthiness on the types that occur here: a missing value and the empty
string are falsy, a missing value and the number 0 are falsy; objects are
always truthy.
-/

/-- A JavaScript value stored in a header mapping: the code stores strings,
except for one line of `initMerge` that stores the literal array `[1]`. -/
inductive HVal where
  | vstr (s : String)
  | varr (ns : List Nat)
deriving DecidableEq, Repr

/-- A header mapping, insertion ordered. -/
def Headers := List (String × HVal)
deriving instance DecidableEq, Repr for Headers

instance : EmptyCollection Headers := ⟨([] : List (String × HVal))⟩

/-- JS property write `m[k] = v`: replace in place when the key exists,
append otherwise.  Also models `Headers.set`. -/
def hset (m : Headers) (k : String) (v : HVal) : Headers :=
  if (List.any m fun kv => kv.1 == k) then
    List.map (fun kv => if kv.1 == k then (k, v) else kv) m
  else
    List.append m [(k, v)]

/-- JS property read `m[k]`. -/
def hget (m : Headers) (k : String) : Option HVal :=
  Option.map Prod.snd (List.find? (fun kv => kv.1 == k) m)

/-- JS truthiness of a possibly-undefined string. -/
def truthyStr (o : Option String) : Bool :=
  match o with
  | none => false
  | some s => !(s == "")

/-- JS truthiness of a possibly-undefined number (integers only: the code
only ever compares and defaults integer ttls/timeouts). -/
def truthyInt (o : Option Int) : Bool :=
  match o with
  | none => false
  | some n => !(n == 0)

/-- String suffix test by character list (the JS endsWith). -/
def strEndsWith (s post : String) : Bool := List.isSuffixOf post.data s.data

/-- String prefix test by character list (the JS startsWith). -/
def strStartsWith (s pre : String) : Bool := List.isPrefixOf pre.data s.data

/-- Mode is a kind of Command (enum of src/index.ts). -/
inductive Mode where
  | query
  | exec
deriving DecidableEq, Repr

/-- Isolation is a transaction type when executing a Command
(enum of src/index.ts). -/
inductive Isolation where
  | none
  | default
  | readUncommitted
  | readCommitted
  | writeCommitted
  | repeatableRead
  | snapshot
  | serializable
  | linearizable
deriving DecidableEq, Repr

/-- The `arguments` field: either an array or an object of arguments. -/
inductive JsArgs where
  | arr (l : List String)
  | obj (l : List (String × String))
deriving DecidableEq, Repr

/-- Command is a standard, non-vendor format for submitting database
commands; after construction every field holds a concrete value. -/
structure Command where
  statement : String
  arguments : JsArgs
  mode      : Mode
  isolation : Isolation
  timeout   : Int
  cacheTtl  : Int
  staleTtl  : Int
deriving DecidableEq, Repr

/-- The loosely-typed parameter record passed to `new Command(...)`:
the fields of class CommandInit before its constructor resolves them
(`Object.assign(this, parameters)` copies the supplied fields). -/
structure CommandInit where
  statement : Option String := Option.none
  arguments : Option JsArgs := Option.none
  mode      : Option Mode := Option.none
  isolation : Option Isolation := Option.none
  timeout   : Option Int := Option.none
  cacheTtl  : Option Int := Option.none
  staleTtl  : Option Int := Option.none
deriving DecidableEq, Repr

/-- The CommandInit constructor of src/index.ts: validate `statement`,
then default each falsy field (`if(!this.f) this.f = d`); `staleTtl`
defaults to the already-resolved `cacheTtl`.  The Command constructor
then copies the resolved record. -/
def Command.make (p : CommandInit) : Except String Command :=
  if truthyStr p.statement then
    let cacheTtl : Int := if truthyInt p.cacheTtl then p.cacheTtl.getD 0 else -1
    Except.ok
      { statement := p.statement.getD ""
        arguments := p.arguments.getD (JsArgs.arr [])
        mode := p.mode.getD Mode.query
        timeout := if truthyInt p.timeout then p.timeout.getD 0 else 0
        isolation := p.isolation.getD Isolation.none
        cacheTtl := cacheTtl
        staleTtl := if truthyInt p.staleTtl then p.staleTtl.getD 0 else cacheTtl }
  else Except.error "statement is a required argument"

/-- The parameter record passed to `new DbConnect(...)`. -/
structure DbConnectInit where
  host         : Option String := Option.none
  clientId     : Option String := Option.none
  clientSecret : Option String := Option.none
deriving DecidableEq, Repr

/-- The resolved DbConnectInit record. -/
structure DbConnectCfg where
  host         : String
  clientId     : Option String
  clientSecret : Option String
deriving DecidableEq, Repr

/-- The DbConnectInit constructor of src/index.ts: `host` is required,
a bare host is prefixed with a secure scheme, and the credential pair
must be both-present or both-absent (`!clientId != !clientSecret`). -/
def DbConnectCfg.make (p : DbConnectInit) : Except String DbConnectCfg :=
  if truthyStr p.host then
    let host := p.host.getD ""
    let host := if strStartsWith host "http" then host else "https://" ++ host
    if (!truthyStr p.clientId) != (!truthyStr p.clientSecret) then
      Except.error "both clientId and clientSecret must be specified"
    else
      Except.ok { host := host, clientId := p.clientId, clientSecret := p.clientSecret }
  else Except.error "host is a required argument"

/-- A Fetch RequestInit object; a field is `some` exactly when the JS
object has that own property.  The `cf` Workers extension object
`\x7bcacheEverything: true\x7d` is modelled by its presence. -/
structure RequestInit where
  method    : Option String := Option.none
  body      : Option String := Option.none
  headers   : Option Headers := Option.none
  keepalive : Option Bool := Option.none
  cf        : Option Bool := Option.none
deriving DecidableEq, Repr

/-- `Object.assign(t, s)` on RequestInit-shaped objects: every own
property of the source overwrites the target. -/
def rassign (t s : RequestInit) : RequestInit :=
  { method := s.method.orElse fun _ => t.method
    body := s.body.orElse fun _ => t.body
    headers := s.headers.orElse fun _ => t.headers
    keepalive := s.keepalive.orElse fun _ => t.keepalive
    cf := s.cf.orElse fun _ => t.cf }

/-- HttpClient of src/index.ts: base url plus base RequestInit.  The
cache store is passed explicitly to `fetch` (the source defaults it to
the ambient `caches.default`). -/
structure HttpClient where
  url  : String
  init : RequestInit
deriving DecidableEq, Repr

/-- The HttpClient constructor: defaults the initializer to empty and
ensures `init.headers` exists (`if(!this.init.headers) this.init.headers = \x7b\x7d`). -/
def HttpClient.make (url : String) (i : Option RequestInit) : HttpClient :=
  let i0 := i.getD {}
  { url := url, init := { i0 with headers := Option.some (i0.headers.getD ∅) } }

/-- DbConnect holds one HttpClient per connection. -/
structure DbConnect where
  httpClient : HttpClient
deriving DecidableEq, Repr

/-- The DbConnect constructor of src/index.ts: resolve the initializer,
then when `init.clientId` is truthy set the two fixed Access headers
verbatim, and build the HttpClient with keepalive and the Workers cf
cache options. -/
def DbConnect.make (p : DbConnectInit) : Except String DbConnect :=
  match DbConnectCfg.make p with
  | Except.error e => Except.error e
  | Except.ok init =>
    let headers : Headers :=
      if truthyStr init.clientId then
        hset (hset ∅ "Cf-access-client-id" (HVal.vstr (init.clientId.getD "")))
          "Cf-access-client-secret" (HVal.vstr (init.clientSecret.getD ""))
      else ∅
    Except.ok
      { httpClient :=
          HttpClient.make init.host
            (Option.some
              { headers := Option.some headers
                keepalive := Option.some true
                cf := Option.some true }) }

/-- Models `new URL(path, base).toString()` for the base URLs this
client constructs (a scheme plus host with no path of its own): the
path is joined onto the base with a single slash. -/
def urlResolve (base path : String) : String :=
  (if strEndsWith base "/" then base else base ++ "/") ++ path

/-- The character list after the first scheme separator, when present. -/
def afterSchemeSep : List Char → Option (List Char)
  | [] => Option.none
  | ':' :: '/' :: '/' :: rest => Option.some rest
  | _ :: rest => afterSchemeSep rest

/-- Models `new URL(u).hostname`: the text after the scheme separator
and before the first slash, colon, query or fragment delimiter. -/
def urlHostname (u : String) : String :=
  let rest := (afterSchemeSep u.data).getD u.data
  String.mk (rest.takeWhile fun c => !(c == '/' || c == ':' || c == '?' || c == '#'))

/-- A Fetch Response as observed by this code: body text, status,
statusText, headers, the redirected flag and the final url. -/
structure Response where
  body       : Option String
  status     : Nat
  statusText : String
  headers    : Headers
  redirected : Bool
  url        : String
deriving DecidableEq, Repr

/-- The ok flag: status in the inclusive range 200 to 299. -/
def Response.ok (r : Response) : Bool :=
  decide (200 ≤ r.status) && decide (r.status < 300)

/-- Models `new Response(body, init)` where the init is an existing
Response (the idiom used in fetchOrigin): status, statusText and
headers are read off the init object, while a constructed Response is
never itself redirected and has no url. -/
def responseCons (body : Option String) (init : Response) : Response :=
  { body := body
    status := init.status
    statusText := init.statusText
    headers := init.headers
    redirected := false
    url := "" }

/-- A Fetch Request as this code builds one. -/
structure Request where
  url     : String
  method  : String
  headers : Headers
  body    : Option String
deriving DecidableEq, Repr

/-- Models `new Request(url, init)`: the method defaults to GET. -/
def mkRequest (url : String) (i : RequestInit) : Request :=
  { url := url
    method := i.method.getD "GET"
    headers := i.headers.getD ∅
    body := i.body }

/-- HttpClient.initMerge of src/index.ts, step by step:
`init = Object.assign(\x7bheaders: \x7b\x7d\x7d, init || \x7b\x7d)`; then every key of the
client base headers is written into that headers object with the
literal value `[1]`; finally `Object.assign(init, this.init)` copies
every own property of the base initializer over the result - in
particular it replaces the headers object wholesale with the base one
(the constructor guarantees the base has a headers property). -/
def HttpClient.initMerge (c : HttpClient) (i : Option RequestInit) : RequestInit :=
  let m1 := rassign { headers := Option.some ∅ } (i.getD {})
  let h1 := List.foldl (fun acc kv => hset acc kv.1 (HVal.varr [1]))
      (m1.headers.getD ∅) (c.init.headers.getD ∅)
  rassign { m1 with headers := Option.some h1 } c.init

/-- The lowercase hexadecimal alphabet. -/
def hexAlphabet : List Char := "0123456789abcdef".data

/-- One lowercase hexadecimal digit. -/
def hexDigit (n : Nat) : Char := hexAlphabet.getD n '0'

/-- A codepoint as exactly six lowercase hexadecimal digits, big endian. -/
def hex6 (n : Nat) : List Char :=
  [hexDigit (n / 1048576 % 16), hexDigit (n / 65536 % 16), hexDigit (n / 4096 % 16),
   hexDigit (n / 256 % 16), hexDigit (n / 16 % 16), hexDigit (n % 16)]

/-- Lowercase hexadecimal expansion of a character list, six digits per
character. -/
def hexOfChars (l : List Char) : List Char :=
  List.flatten (List.map (fun c => hex6 c.toNat) l)

/-- Modelled from the spec: the body of `sha256` in src/index.ts runs the
platform primitives `JSON.stringify`, `TextEncoder.encode` and
`crypto.subtle.digest('SHA-256', ...)`, none of which are part of this
repository.  The spec describes the result as a lowercase hexadecimal
content digest that is a pure function of the serialized body, with
identical bodies always colliding and any byte difference producing a
different digest; accordingly the serialize-and-digest pipeline is
modelled as an injective function into lowercase hexadecimal strings
(an undefined body stringifies differently from every string body). -/
def sha256 (object : Option String) : String :=
  String.mk (hexOfChars
    (match object with
     | Option.none => "undefined".data
     | Option.some s => '"' :: s.data))

/-- HttpClient.cacheKey of src/index.ts: resolve the path against the
base url and merge the initializer; a non-POST request is the key
itself; for a POST the digest of the body is appended as a path
segment and the key is a GET request carrying only the merged headers. -/
def HttpClient.cacheKey (c : HttpClient) (path : String) (i : Option RequestInit) : Request :=
  let p := urlResolve c.url path
  let init := c.initMerge i
  if init.method == Option.some "POST" then
    mkRequest (p ++ "/_/" ++ sha256 init.body)
      { method := Option.some "GET", headers := init.headers }
  else
    mkRequest p init

/-- HttpClient.cacheHeader of src/index.ts: start from public, replace
with the no-store form when both ttls are negative, then append the
max-age and stale-while-revalidate clauses for the non-negative ttls. -/
def HttpClient.cacheHeader (cacheTtl staleTtl : Int) : String :=
  let c0 := "public"
  let c1 := if cacheTtl < 0 && staleTtl < 0 then "private no-store no-cache" else c0
  let c2 := if cacheTtl ≥ 0 then c1 ++ ", max-age=" ++ toString cacheTtl else c1
  if staleTtl ≥ 0 then c2 ++ ", stale-while-revalidate=" ++ toString staleTtl else c2

/-- The fixed diagnostic body of an intercepted response. -/
def gatewayMessage : String := "client credentials rejected by cloudflare access"

/-- The fixed authentication-gateway domain suffix. -/
def gatewaySuffix : String := "cloudflareaccess.com"

/-- HttpClient.fetchOrigin of src/index.ts.  The origin transport is the
ambient `fetch`, passed explicitly as a function from resolved url and
merged initializer to a Response.  When the transport reports a
redirect whose final hostname ends in the gateway suffix, a fresh
Response is built from the fixed diagnostic body and the original
response as init; otherwise a fresh Response is built from the
original body and the original response as init. -/
def HttpClient.fetchOrigin (c : HttpClient) (origin : String → RequestInit → Response)
    (path : String) (i : Option RequestInit) : Response :=
  let p := urlResolve c.url path
  let init := c.initMerge i
  let response := origin p init
  if response.redirected && strEndsWith (urlHostname response.url) gatewaySuffix then
    responseCons (Option.some gatewayMessage) response
  else
    responseCons response.body response

/-- The cache store: the Cache API keyed by request url (`match` is
called with ignoreMethod, so only the url takes part in matching). -/
def CacheStore := List (String × Response)
deriving instance DecidableEq, Repr for CacheStore

instance : EmptyCollection CacheStore := ⟨([] : List (String × Response))⟩

/-- Cache.match with ignoreMethod: look the key request url up. -/
def cacheMatch (cache : CacheStore) (key : Request) : Option Response :=
  Option.map Prod.snd (List.find? (fun kv => kv.1 == key.url) cache)

/-- Cache.put: store the response under the key request url, replacing
any previous entry for that url. -/
def cachePut (cache : CacheStore) (key : Request) (r : Response) : CacheStore :=
  if (List.any cache fun kv => kv.1 == key.url) then
    List.map (fun kv => if kv.1 == key.url then (key.url, r) else kv) cache
  else
    List.append cache [(key.url, r)]

/-- Writing one response header (`response.headers.set(k, v)`). -/
def setResponseHeader (r : Response) (k v : String) : Response :=
  { r with headers := hset r.headers k (HVal.vstr v) }

/-- HttpClient.fetch of src/index.ts: derive the key; when both ttls are
negative go straight to the origin; otherwise consult the cache store,
and on a miss fetch the origin, set the Cache-control header, store a
clone under the key and return the response.  Returns the response
together with the cache store state after the call. -/
def HttpClient.fetch (c : HttpClient) (origin : String → RequestInit → Response)
    (cache : CacheStore) (path : String) (i : Option RequestInit)
    (cacheTtl staleTtl : Int) : Response × CacheStore :=
  let key := c.cacheKey path i
  if cacheTtl < 0 && staleTtl < 0 then
    (c.fetchOrigin origin path i, cache)
  else
    match cacheMatch cache key with
    | Option.some response => (response, cache)
    | Option.none =>
      let response := setResponseHeader (c.fetchOrigin origin path i)
          "Cache-control" (HttpClient.cacheHeader cacheTtl staleTtl)
      (response, cachePut cache key response)

/-- DbConnect.ping of src/index.ts: a GET to the fixed path, with
cacheTtl 0 and staleTtl 3. -/
def DbConnect.ping (db : DbConnect) (origin : String → RequestInit → Response)
    (cache : CacheStore) : Response × CacheStore :=
  db.httpClient.fetch origin cache "ping" (Option.some { method := Option.some "GET" }) 0 3

/-- The inverse hexadecimal digit, as a position in the alphabet. -/
def unhexDigit (c : Char) : Nat := hexAlphabet.indexOf c

/-- Decoding a single encoded digit below 16 recovers it. -/
theorem unhexDigit_hexDigit : ∀ d : Nat, d < 16 → unhexDigit (hexDigit d) = d := by decide

/-- Every digit the encoder emits lies in the lowercase alphabet. -/
theorem hexDigit_mem (n : Nat) : hexDigit n ∈ hexAlphabet := by
  unfold hexDigit
  by_cases h : n < hexAlphabet.length
  · have h16 : n < 16 := h
    interval_cases n <;> decide
  · rw [List.getD_eq_getElem?_getD, List.getElem?_eq_none (le_of_not_lt h)]
    decide

/-- Decoder for a six-digit block. -/
def unhex6 (l : List Char) : Nat := List.foldl (fun a c => 16 * a + unhexDigit c) 0 l

/-- Decoding a six-digit block of a codepoint-sized number recovers it. -/
theorem unhex6_hex6 (n : Nat) (h : n < 16777216) : unhex6 (hex6 n) = n := by
  have h1 : n / 1048576 % 16 < 16 := Nat.mod_lt _ (by norm_num)
  have h2 : n / 65536 % 16 < 16 := Nat.mod_lt _ (by norm_num)
  have h3 : n / 4096 % 16 < 16 := Nat.mod_lt _ (by norm_num)
  have h4 : n / 256 % 16 < 16 := Nat.mod_lt _ (by norm_num)
  have h5 : n / 16 % 16 < 16 := Nat.mod_lt _ (by norm_num)
  have h6 : n % 16 < 16 := Nat.mod_lt _ (by norm_num)
  simp only [hex6, unhex6, List.foldl]
  rw [unhexDigit_hexDigit _ h1, unhexDigit_hexDigit _ h2, unhexDigit_hexDigit _ h3,
    unhexDigit_hexDigit _ h4, unhexDigit_hexDigit _ h5, unhexDigit_hexDigit _ h6]
  omega

/-- Every character has a codepoint below the six-hex-digit bound. -/
theorem char_toNat_lt (c : Char) : c.toNat < 16777216 := by
  rcases c.valid with h | h
  · have hv : c.val.toNat < 55296 := h
    have he : c.toNat = c.val.toNat := rfl
    omega
  · have hv : c.val.toNat < 1114112 := h.2
    have he : c.toNat = c.val.toNat := rfl
    omega

/-- Characters with the same codepoint are equal. -/
theorem char_toNat_inj {a b : Char} (h : a.toNat = b.toNat) : a = b :=
  Char.ext (UInt32.ext h)

/-- Unfolding the hexadecimal expansion one character at a time. -/
theorem hexOfChars_cons (a : Char) (l : List Char) :
    hexOfChars (a :: l) = List.append (hex6 a.toNat) (hexOfChars l) := rfl

/-- The six-digit-per-character expansion is injective. -/
theorem hexOfChars_injective : ∀ l1 l2 : List Char, hexOfChars l1 = hexOfChars l2 → l1 = l2 := by
  intro l1
  induction l1 with
  | nil =>
    intro l2 h
    cases l2 with
    | nil => rfl
    | cons b bs =>
      exfalso
      have hl := congrArg List.length h
      rw [hexOfChars_cons] at hl
      simp [hexOfChars, hex6] at hl
  | cons a as ih =>
    intro l2 h
    cases l2 with
    | nil =>
      exfalso
      have hl := congrArg List.length h
      rw [hexOfChars_cons] at hl
      simp [hexOfChars, hex6] at hl
    | cons b bs =>
      rw [hexOfChars_cons, hexOfChars_cons] at h
      have hlen : (hex6 a.toNat).length = (hex6 b.toNat).length := rfl
      obtain ⟨h1, h2⟩ := List.append_inj h hlen
      have hn : a.toNat = b.toNat := by
        have hu := congrArg unhex6 h1
        rwa [unhex6_hex6 _ (char_toNat_lt a), unhex6_hex6 _ (char_toNat_lt b)] at hu
      rw [char_toNat_inj hn, ih bs h2]

/-- Two string bodies with the same digest are equal. -/
theorem sha256_injective_some {s1 s2 : String} (h : sha256 (Option.some s1) = sha256 (Option.some s2)) :
    s1 = s2 := by
  unfold sha256 at h
  injection h with h
  have hc := hexOfChars_injective _ _ h
  have hd : s1.data = s2.data := by injection hc
  cases s1
  cases s2
  exact congrArg String.mk hd

/-- A string made only of lowercase hexadecimal digits. -/
def isLowerHex (s : String) : Prop := ∀ c ∈ s.data, c ∈ hexAlphabet

/-- The digest prints as lowercase hexadecimal. -/
theorem sha256_isLowerHex (o : Option String) : isLowerHex (sha256 o) := by
  intro c hc
  cases o with
  | none =>
    unfold sha256 at hc
    have hc2 : c ∈ hexOfChars "undefined".data := hc
    rcases List.mem_flatten.mp hc2 with ⟨blk, hblk, hcb⟩
    rcases List.mem_map.mp hblk with ⟨ch, _, hrfl⟩
    rw [← hrfl] at hcb
    simp only [hex6, List.mem_cons, List.not_mem_nil, or_false] at hcb
    rcases hcb with h|h|h|h|h|h <;> rw [h] <;> exact hexDigit_mem _
  | some s =>
    unfold sha256 at hc
    have hc2 : c ∈ hexOfChars ('"' :: s.data) := hc
    rcases List.mem_flatten.mp hc2 with ⟨blk, hblk, hcb⟩
    rcases List.mem_map.mp hblk with ⟨ch, _, hrfl⟩
    rw [← hrfl] at hcb
    simp only [hex6, List.mem_cons, List.not_mem_nil, or_false] at hcb
    rcases hcb with h|h|h|h|h|h <;> rw [h] <;> exact hexDigit_mem _


/-- The resolved record produced by a successful Command construction
(a helper naming the value Command.make returns on a truthy statement). -/
def resolveCommand (p : CommandInit) : Command :=
  { statement := p.statement.getD ""
    arguments := p.arguments.getD (JsArgs.arr [])
    mode := p.mode.getD Mode.query
    timeout := if truthyInt p.timeout then p.timeout.getD 0 else 0
    isolation := p.isolation.getD Isolation.none
    cacheTtl := if truthyInt p.cacheTtl then p.cacheTtl.getD 0 else -1
    staleTtl := if truthyInt p.staleTtl then p.staleTtl.getD 0
      else if truthyInt p.cacheTtl then p.cacheTtl.getD 0 else -1 }

/-- Command construction succeeds with the resolved record whenever the
statement is truthy. -/
theorem command_make_ok (p : CommandInit) (h : truthyStr p.statement = true) :
    Command.make p = Except.ok (resolveCommand p) := by
  simp [Command.make, resolveCommand, h]

/-- Claim C2, counterexample: with both ttls negative the synthesized
directive is the space-separated string "private no-store no-cache",
not the comma-separated "private, no-store, no-cache" the claim
states. -/
theorem cacheHeader_both_negative_counterexample :
    HttpClient.cacheHeader (-1) (-1) ≠ "private, no-store, no-cache" ∧
    HttpClient.cacheHeader (-1) (-1) = "private no-store no-cache" := by
  exact ⟨by decide, rfl⟩

/-- Claim C2 as amended: for every pair of ttls the synthesis function
returns "private no-store no-cache" (space separated, as the code
writes it) when both are negative, and otherwise "public" followed by
the max-age clause when cacheTtl is non-negative and the
stale-while-revalidate clause when staleTtl is non-negative; in
particular the three tabulated pairs give the tabulated strings with
that one change. -/
theorem cacheHeader_directive_table (a b : Int) :
    HttpClient.cacheHeader a b =
      ((if a < 0 ∧ b < 0 then "private no-store no-cache" else "public")
        ++ (if a ≥ 0 then ", max-age=" ++ toString a else "")
        ++ (if b ≥ 0 then ", stale-while-revalidate=" ++ toString b else "")) ∧
    HttpClient.cacheHeader (-1) (-1) = "private no-store no-cache" ∧
    HttpClient.cacheHeader 60 (-1) = "public, max-age=60" ∧
    HttpClient.cacheHeader 0 3 = "public, max-age=0, stale-while-revalidate=3" := by
  refine ⟨?_, rfl, rfl, rfl⟩
  by_cases ha : a < 0 <;> by_cases hb : b < 0
  · have ha' : ¬ a ≥ 0 := by omega
    have hb' : ¬ b ≥ 0 := by omega
    simp [HttpClient.cacheHeader, ha, hb, ha', hb', String.append_empty]
  · have ha' : ¬ a ≥ 0 := by omega
    have hb' : b ≥ 0 := by omega
    simp [HttpClient.cacheHeader, ha, hb, ha', hb', String.append_empty,
      ← String.append_assoc]
  · have ha' : a ≥ 0 := by omega
    have hb' : ¬ b ≥ 0 := by omega
    simp [HttpClient.cacheHeader, ha, hb, ha', hb', String.append_empty,
      ← String.append_assoc]
  · have ha' : a ≥ 0 := by omega
    have hb' : b ≥ 0 := by omega
    simp [HttpClient.cacheHeader, ha, hb, ha', hb', String.append_empty,
      ← String.append_assoc]

/-- Claim C4: a parameter record whose statement is a non-empty string
constructs successfully with every absent field resolved to its
default (arguments to the empty array, mode to query, timeout to 0,
isolation to none, cacheTtl to -1, staleTtl to the resolved cacheTtl;
cacheTtl 60 with no staleTtl resolves staleTtl 60, and cacheTtl 60
with staleTtl 10 resolves staleTtl 10), while a record omitting
statement fails construction with the validation error. -/
theorem command_make_defaults (p : CommandInit) (s : String)
    (hs : p.statement = Option.some s) (hne : s ≠ "")
    (q : CommandInit) (hq : q.statement = Option.none) :
    (∃ cmd : Command, Command.make p = Except.ok cmd ∧
      cmd.statement = s ∧
      (p.arguments = Option.none → cmd.arguments = JsArgs.arr []) ∧
      (p.mode = Option.none → cmd.mode = Mode.query) ∧
      (p.timeout = Option.none → cmd.timeout = 0) ∧
      (p.isolation = Option.none → cmd.isolation = Isolation.none) ∧
      (p.cacheTtl = Option.none → cmd.cacheTtl = -1) ∧
      (p.staleTtl = Option.none → cmd.staleTtl = cmd.cacheTtl) ∧
      (p.cacheTtl = Option.some 60 → p.staleTtl = Option.none →
        cmd.cacheTtl = 60 ∧ cmd.staleTtl = 60) ∧
      (p.cacheTtl = Option.some 60 → p.staleTtl = Option.some 10 → cmd.staleTtl = 10)) ∧
    Command.make q = Except.error "statement is a required argument" := by
  have htr : truthyStr p.statement = true := by
    rw [hs]
    simpa [truthyStr] using hne
  have hqr : truthyStr q.statement = false := by rw [hq]; rfl
  refine ⟨⟨resolveCommand p, command_make_ok p htr, ?_, ?_, ?_, ?_, ?_, ?_, ?_, ?_, ?_⟩, ?_⟩
  · simp [resolveCommand, hs]
  · intro h
    simp [resolveCommand, h]
  · intro h
    simp [resolveCommand, h]
  · intro h
    simp [resolveCommand, h, truthyInt]
  · intro h
    simp [resolveCommand, h]
  · intro h
    simp [resolveCommand, h, truthyInt]
  · intro h
    simp [resolveCommand, h, truthyInt]
  · intro h1 h2
    simp [resolveCommand, h1, h2, truthyInt]
  · intro h1 h2
    simp [resolveCommand, h1, h2, truthyInt]
  · simp [Command.make, hqr]

/-- Claim C4, witness at a concrete record. -/
theorem command_make_defaults_witness :
    (∃ cmd : Command,
      Command.make { statement := Option.some "SELECT 1", cacheTtl := Option.some 60 } =
        Except.ok cmd ∧
      cmd.statement = "SELECT 1" ∧ cmd.cacheTtl = 60 ∧ cmd.staleTtl = 60) ∧
    Command.make {} = Except.error "statement is a required argument" := by
  have h := command_make_defaults
    { statement := Option.some "SELECT 1", cacheTtl := Option.some 60 } "SELECT 1" rfl
    (by decide) {} rfl
  obtain ⟨⟨cmd, hmk, hst, _, _, _, _, _, _, h60, _⟩, herr⟩ := h
  exact ⟨⟨cmd, hmk, hst, (h60 rfl rfl).1, (h60 rfl rfl).2⟩, herr⟩

/-- Claim C10: construction does not distinguish an explicitly supplied
falsy 0 from an absent field: cacheTtl supplied as 0 resolves to -1,
and staleTtl supplied as 0 resolves to the resolved cacheTtl. -/
theorem command_make_falsy_zero (p : CommandInit) (s : String)
    (hs : p.statement = Option.some s) (hne : s ≠ "") (hc : p.cacheTtl = Option.some 0)
    (q : CommandInit) (t : String)
    (hqs : q.statement = Option.some t) (htne : t ≠ "") (hqt : q.staleTtl = Option.some 0) :
    (∃ cmd : Command, Command.make p = Except.ok cmd ∧ cmd.cacheTtl = -1) ∧
    (∃ cmd : Command, Command.make q = Except.ok cmd ∧ cmd.staleTtl = cmd.cacheTtl) := by
  have htr : truthyStr p.statement = true := by
    rw [hs]
    simpa [truthyStr] using hne
  have hqr : truthyStr q.statement = true := by
    rw [hqs]
    simpa [truthyStr] using htne
  constructor
  · refine ⟨resolveCommand p, command_make_ok p htr, ?_⟩
    simp [resolveCommand, hc, truthyInt]
  · refine ⟨resolveCommand q, command_make_ok q hqr, ?_⟩
    simp [resolveCommand, hqt, truthyInt]

/-- Claim C10, witness at concrete records: cacheTtl 0 resolves to -1,
and staleTtl 0 with cacheTtl 7 resolves to 7 rather than 0. -/
theorem command_make_falsy_zero_witness :
    (∃ cmd : Command,
      Command.make { statement := Option.some "SELECT 1", cacheTtl := Option.some 0 } =
        Except.ok cmd ∧ cmd.cacheTtl = -1) ∧
    (∃ cmd : Command,
      Command.make { statement := Option.some "SELECT 1", cacheTtl := Option.some 7, staleTtl := Option.some 0 } =
        Except.ok cmd ∧ cmd.staleTtl = cmd.cacheTtl) :=
  command_make_falsy_zero
    { statement := Option.some "SELECT 1", cacheTtl := Option.some 0 } "SELECT 1" rfl
    (by decide) rfl
    { statement := Option.some "SELECT 1", cacheTtl := Option.some 7, staleTtl := Option.some 0 }
    "SELECT 1" rfl (by decide) rfl

/-- Connection construction result, spelt out, for a truthy host and a
credential pair that passes the pairing check (helper). -/
theorem dbconnect_make_ok_aux (p : DbConnectInit) (hh : truthyStr p.host = true)
    (hx : ((!truthyStr p.clientId) != (!truthyStr p.clientSecret)) = false) :
    DbConnect.make p = Except.ok
      ⟨HttpClient.make
        (if strStartsWith (p.host.getD "") "http" then p.host.getD ""
          else "https://" ++ p.host.getD "")
        (Option.some
          { headers := Option.some (if truthyStr p.clientId then
              hset (hset ∅ "Cf-access-client-id" (HVal.vstr (p.clientId.getD "")))
                "Cf-access-client-secret" (HVal.vstr (p.clientSecret.getD ""))
              else ∅)
            keepalive := Option.some true
            cf := Option.some true })⟩ := by
  simp [DbConnect.make, DbConnectCfg.make, hh, hx]

/-- Claim C8: supplying exactly one credential fails construction with
the configuration error (before anything else is built); supplying
neither succeeds with an empty credential header mapping; supplying
both succeeds with the two fixed-name headers carrying the identifier
and secret verbatim. -/
theorem dbconnect_credential_pairing (p1 p2 p3 : DbConnectInit)
    (h1h : truthyStr p1.host = true)
    (h1x : truthyStr p1.clientId ≠ truthyStr p1.clientSecret)
    (h2h : truthyStr p2.host = true)
    (h2a : truthyStr p2.clientId = false) (h2b : truthyStr p2.clientSecret = false)
    (h3h : truthyStr p3.host = true) (cid csec : String)
    (h3a : p3.clientId = Option.some cid) (h3c : cid ≠ "")
    (h3b : p3.clientSecret = Option.some csec) (h3d : csec ≠ "") :
    DbConnect.make p1 = Except.error "both clientId and clientSecret must be specified" ∧
    (∃ db : DbConnect, DbConnect.make p2 = Except.ok db ∧
      db.httpClient.init.headers = Option.some (∅ : Headers)) ∧
    (∃ db : DbConnect, DbConnect.make p3 = Except.ok db ∧
      db.httpClient.init.headers = Option.some
        [("Cf-access-client-id", HVal.vstr cid),
         ("Cf-access-client-secret", HVal.vstr csec)]) := by
  refine ⟨?_, ?_, ?_⟩
  · have hx : ((!truthyStr p1.clientId) != (!truthyStr p1.clientSecret)) = true := by
      cases hA : truthyStr p1.clientId <;> cases hB : truthyStr p1.clientSecret <;>
        simp_all
    simp [DbConnect.make, DbConnectCfg.make, h1h, hx]
  · have hx : ((!truthyStr p2.clientId) != (!truthyStr p2.clientSecret)) = false := by
      rw [h2a, h2b]
      decide
    rw [dbconnect_make_ok_aux p2 h2h hx]
    refine ⟨_, rfl, ?_⟩
    simp [HttpClient.make, h2a]
  · have h3id : truthyStr p3.clientId = true := by
      rw [h3a]
      simpa [truthyStr] using h3c
    have h3sec : truthyStr p3.clientSecret = true := by
      rw [h3b]
      simpa [truthyStr] using h3d
    have hx : ((!truthyStr p3.clientId) != (!truthyStr p3.clientSecret)) = false := by
      rw [h3id, h3sec]
      decide
    rw [dbconnect_make_ok_aux p3 h3h hx]
    refine ⟨_, rfl, ?_⟩
    have hk : (("Cf-access-client-id" : String) == "Cf-access-client-secret") = false := by
      decide
    have h3id' : truthyStr (Option.some cid) = true := by rw [← h3a]; exact h3id
    simp [HttpClient.make, h3id', h3a, h3b, hset, EmptyCollection.emptyCollection, hk]

/-- Claim C8, witness at concrete parameter records. -/
theorem dbconnect_credential_pairing_witness :
    DbConnect.make { host := Option.some "db.myzone.com", clientId := Option.some "id" } =
      Except.error "both clientId and clientSecret must be specified" ∧
    (∃ db : DbConnect,
      DbConnect.make { host := Option.some "db.myzone.com" } = Except.ok db ∧
      db.httpClient.init.headers = Option.some (∅ : Headers)) ∧
    (∃ db : DbConnect,
      DbConnect.make { host := Option.some "db.myzone.com", clientId := Option.some "id", clientSecret := Option.some "sec" } =
        Except.ok db ∧
      db.httpClient.init.headers = Option.some
        [("Cf-access-client-id", HVal.vstr "id"),
         ("Cf-access-client-secret", HVal.vstr "sec")]) :=
  dbconnect_credential_pairing
    { host := Option.some "db.myzone.com", clientId := Option.some "id" }
    { host := Option.some "db.myzone.com" }
    { host := Option.some "db.myzone.com", clientId := Option.some "id", clientSecret := Option.some "sec" }
    rfl (by decide) rfl rfl rfl rfl "id" "sec" rfl (by decide) rfl (by decide)

/-- Claim C3, counterexample: a per-call header whose key collides with
no base header is absent from the merged initializer (the final
object-assign replaces the headers object wholesale with the base
one), so the merge does not retain non-colliding per-call headers. -/
theorem initMerge_drops_per_call_header_counterexample :
    hget (((HttpClient.make "https://db.myzone.com"
        (Option.some { headers := Option.some [("Cf-access-client-id", HVal.vstr "id")] })).initMerge
      (Option.some { headers := Option.some [("Content-type", HVal.vstr "application/json")] })).headers.getD ∅)
      "Content-type" = Option.none ∧
    ((HttpClient.make "https://db.myzone.com"
        (Option.some { headers := Option.some [("Cf-access-client-id", HVal.vstr "id")] })).initMerge
      (Option.some { headers := Option.some [("Content-type", HVal.vstr "application/json")] })).headers =
      Option.some [("Cf-access-client-id", HVal.vstr "id")] := by
  exact ⟨rfl, rfl⟩

/-- Claim C3 as amended: for every per-call initializer the merged
request headers are exactly the connection's base header mapping; on a
colliding key the connection's base value therefore wins, but per-call
headers with non-colliding keys are dropped rather than retained.  The
merge never looks at the caching ttls. -/
theorem initMerge_headers_are_base (url : String) (i0 : Option RequestInit)
    (j : Option RequestInit) :
    ((HttpClient.make url i0).initMerge j).headers = (HttpClient.make url i0).init.headers := by
  simp [HttpClient.initMerge, HttpClient.make, rassign, Option.some_orElse]

/-- Merged initializer fields when the base initializer has headers but
no method and no body of its own, as the DbConnect constructor builds
it (helper). -/
theorem initMerge_resolved (c : HttpClient) (i : RequestInit) (hs0 : Headers)
    (hch : c.init.headers = Option.some hs0) (hcm : c.init.method = Option.none)
    (hcb : c.init.body = Option.none) :
    (c.initMerge (Option.some i)).method = i.method ∧
    (c.initMerge (Option.some i)).body = i.body ∧
    (c.initMerge (Option.some i)).headers = Option.some hs0 := by
  refine ⟨?_, ?_, ?_⟩
  · show ((rassign _ c.init).method) = i.method
    rw [rassign]
    simp [hcm, Option.none_orElse, rassign]
  · show ((rassign _ c.init).body) = i.body
    rw [rassign]
    simp [hcb, Option.none_orElse, rassign]
  · show ((rassign _ c.init).headers) = Option.some hs0
    rw [rassign]
    simp [hch, Option.some_orElse]

/-- Appending to the same string on the left is injective (helper). -/
theorem str_append_right_inj (x s1 s2 : String) (h : x ++ s1 = x ++ s2) : s1 = s2 := by
  have hd := congrArg String.data h
  rw [String.data_append, String.data_append] at hd
  have hc := List.append_cancel_left hd
  cases s1
  cases s2
  exact congrArg String.mk hc

/-- Claim C5: for a POST through a client whose base initializer has
headers but no method or body of its own (as the constructor builds
it), the derived cache key is a GET request at the resolved url with
the lowercase-hexadecimal body digest appended as a path segment,
carrying exactly the outgoing (merged) headers and no body; two POSTs
with identical serialized bodies to the same path derive the same key
(whatever their per-call headers), and different bodies derive
different keys. -/
theorem cacheKey_post_content_hash (c : HttpClient) (hs0 : Headers)
    (hch : c.init.headers = Option.some hs0) (hcm : c.init.method = Option.none)
    (hcb : c.init.body = Option.none) (path : String) (i1 i2 : RequestInit) (b1 b2 : String)
    (h1m : i1.method = Option.some "POST") (h1b : i1.body = Option.some b1)
    (h2m : i2.method = Option.some "POST") (h2b : i2.body = Option.some b2) :
    (c.cacheKey path (Option.some i1)).url =
      urlResolve c.url path ++ "/_/" ++ sha256 (Option.some b1) ∧
    (c.cacheKey path (Option.some i1)).method = "GET" ∧
    (c.cacheKey path (Option.some i1)).body = Option.none ∧
    (c.cacheKey path (Option.some i1)).headers = hs0 ∧
    isLowerHex (sha256 (Option.some b1)) ∧
    (b1 = b2 → c.cacheKey path (Option.some i1) = c.cacheKey path (Option.some i2)) ∧
    (b1 ≠ b2 → c.cacheKey path (Option.some i1) ≠ c.cacheKey path (Option.some i2)) := by
  obtain ⟨hm1, hb1, hh1⟩ := initMerge_resolved c i1 hs0 hch hcm hcb
  obtain ⟨hm2, hb2, hh2⟩ := initMerge_resolved c i2 hs0 hch hcm hcb
  have hkey1 : c.cacheKey path (Option.some i1) =
      { url := urlResolve c.url path ++ "/_/" ++ sha256 (Option.some b1)
        method := "GET", headers := hs0, body := Option.none } := by
    simp [HttpClient.cacheKey, mkRequest, hm1, hb1, hh1, h1m, h1b]
  have hkey2 : c.cacheKey path (Option.some i2) =
      { url := urlResolve c.url path ++ "/_/" ++ sha256 (Option.some b2)
        method := "GET", headers := hs0, body := Option.none } := by
    simp [HttpClient.cacheKey, mkRequest, hm2, hb2, hh2, h2m, h2b]
  refine ⟨by rw [hkey1], by rw [hkey1], by rw [hkey1], by rw [hkey1],
    sha256_isLowerHex (Option.some b1), ?_, ?_⟩
  · intro hb
    rw [hkey1, hkey2, hb]
  · intro hb hk
    apply hb
    rw [hkey1, hkey2] at hk
    have hu := congrArg Request.url hk
    simp only [] at hu
    have hu2 := str_append_right_inj (urlResolve c.url path ++ "/_/")
      (sha256 (Option.some b1)) (sha256 (Option.some b2)) hu
    exact sha256_injective_some hu2

/-- Claim C5, witness: a concrete client and two concrete POST bodies;
identical bodies give equal keys and the two distinct bodies give
different keys. -/
theorem cacheKey_post_content_hash_witness :
    ((HttpClient.make "https://db.myzone.com"
        (Option.some { headers := Option.some (∅ : Headers) })).cacheKey "submit"
      (Option.some { method := Option.some "POST", body := Option.some "abc" })).url =
      urlResolve "https://db.myzone.com" "submit" ++ "/_/" ++ sha256 (Option.some "abc") ∧
    ("abc" = "abd" →
      (HttpClient.make "https://db.myzone.com"
          (Option.some { headers := Option.some (∅ : Headers) })).cacheKey "submit"
        (Option.some { method := Option.some "POST", body := Option.some "abc" }) =
      (HttpClient.make "https://db.myzone.com"
          (Option.some { headers := Option.some (∅ : Headers) })).cacheKey "submit"
        (Option.some { method := Option.some "POST", body := Option.some "abd" })) ∧
    ("abc" ≠ "abd" →
      (HttpClient.make "https://db.myzone.com"
          (Option.some { headers := Option.some (∅ : Headers) })).cacheKey "submit"
        (Option.some { method := Option.some "POST", body := Option.some "abc" }) ≠
      (HttpClient.make "https://db.myzone.com"
          (Option.some { headers := Option.some (∅ : Headers) })).cacheKey "submit"
        (Option.some { method := Option.some "POST", body := Option.some "abd" })) := by
  have h := cacheKey_post_content_hash
    (HttpClient.make "https://db.myzone.com" (Option.some { headers := Option.some (∅ : Headers) }))
    ∅ rfl rfl rfl "submit"
    { method := Option.some "POST", body := Option.some "abc" }
    { method := Option.some "POST", body := Option.some "abd" }
    "abc" "abd" rfl rfl rfl rfl
  exact ⟨h.1, h.2.2.2.2.2.1, h.2.2.2.2.2.2⟩

/-- Claim C1, counterexample: an origin response marked redirected to a
host under the gateway suffix with status 200 is replaced by a
response that carries the fixed diagnostic body but is still ok,
because the original response is passed as the init of the
replacement and its 200 status is inherited; so the interception does
not always produce a non-ok response. -/
theorem fetchOrigin_gateway_ok_counterexample :
    ((HttpClient.make "https://db.myzone.com"
        (Option.some { headers := Option.some (∅ : Headers) })).fetchOrigin
      (fun _ _ =>
        { body := Option.some "<html>login</html>", status := 200, statusText := "OK",
          headers := ∅, redirected := true,
          url := "https://team.cloudflareaccess.com/login" })
      "submit" Option.none).ok = true ∧
    ((HttpClient.make "https://db.myzone.com"
        (Option.some { headers := Option.some (∅ : Headers) })).fetchOrigin
      (fun _ _ =>
        { body := Option.some "<html>login</html>", status := 200, statusText := "OK",
          headers := ∅, redirected := true,
          url := "https://team.cloudflareaccess.com/login" })
      "submit" Option.none).body = Option.some gatewayMessage := by
  exact ⟨rfl, rfl⟩

/-- Claim C1 as amended: when the transport reports a redirect whose
final hostname ends with the gateway suffix, the response is replaced
by one built from the fixed explanatory body and the original
response as init - so the body is always the fixed text, but the
status, statusText and headers are inherited from the original
response, and the replacement is non-ok exactly when the original
status was non-ok (at an original status of 200 it is ok). -/
theorem fetchOrigin_gateway_interception (c : HttpClient)
    (origin : String → RequestInit → Response) (path : String) (i : Option RequestInit)
    (hr : (origin (urlResolve c.url path) (c.initMerge i)).redirected = true)
    (hh : strEndsWith (urlHostname (origin (urlResolve c.url path) (c.initMerge i)).url)
      gatewaySuffix = true) :
    c.fetchOrigin origin path i =
      responseCons (Option.some gatewayMessage)
        (origin (urlResolve c.url path) (c.initMerge i)) ∧
    (c.fetchOrigin origin path i).body = Option.some gatewayMessage ∧
    (c.fetchOrigin origin path i).status =
      (origin (urlResolve c.url path) (c.initMerge i)).status ∧
    (c.fetchOrigin origin path i).ok =
      (origin (urlResolve c.url path) (c.initMerge i)).ok := by
  have hf : c.fetchOrigin origin path i =
      responseCons (Option.some gatewayMessage)
        (origin (urlResolve c.url path) (c.initMerge i)) := by
    simp [HttpClient.fetchOrigin, hr, hh]
  refine ⟨hf, by rw [hf]; rfl, by rw [hf]; rfl, by rw [hf]; rfl⟩

/-- Claim C1, witness: the amended statement at the concrete redirected
200 login response. -/
theorem fetchOrigin_gateway_interception_witness :
    ((HttpClient.make "https://db.myzone.com"
        (Option.some { headers := Option.some (∅ : Headers) })).fetchOrigin
      (fun _ _ =>
        { body := Option.some "<html>login</html>", status := 302, statusText := "Found",
          headers := ∅, redirected := true,
          url := "https://team.cloudflareaccess.com/login" })
      "submit" Option.none).body = Option.some gatewayMessage ∧
    ((HttpClient.make "https://db.myzone.com"
        (Option.some { headers := Option.some (∅ : Headers) })).fetchOrigin
      (fun _ _ =>
        { body := Option.some "<html>login</html>", status := 302, statusText := "Found",
          headers := ∅, redirected := true,
          url := "https://team.cloudflareaccess.com/login" })
      "submit" Option.none).status = 302 := by
  have h := fetchOrigin_gateway_interception
    (HttpClient.make "https://db.myzone.com" (Option.some { headers := Option.some (∅ : Headers) }))
    (fun _ _ =>
      { body := Option.some "<html>login</html>", status := 302, statusText := "Found",
        headers := ∅, redirected := true,
        url := "https://team.cloudflareaccess.com/login" })
    "submit" Option.none rfl rfl
  exact ⟨h.2.1, h.2.2.1⟩

/-- Claim C7: with both ttls negative the fetch layer goes straight to
the origin; for every cache store state the result is the plain origin
fetch and the store is returned unchanged (so no read influences the
result and no write occurs). -/
theorem fetch_uncacheable_bypasses_cache (c : HttpClient)
    (origin : String → RequestInit → Response) (path : String) (i : Option RequestInit)
    (cacheTtl staleTtl : Int) (hc : cacheTtl < 0) (hs : staleTtl < 0) :
    ∀ cache : CacheStore,
      c.fetch origin cache path i cacheTtl staleTtl = (c.fetchOrigin origin path i, cache) := by
  intro cache
  simp [HttpClient.fetch, hc, hs]

/-- Claim C7, witness at a concrete client, origin, and a non-empty
concrete cache store. -/
theorem fetch_uncacheable_bypasses_cache_witness :
    (HttpClient.make "https://db.myzone.com"
        (Option.some { headers := Option.some (∅ : Headers) })).fetch
      (fun _ _ =>
        { body := Option.some "[]", status := 200, statusText := "OK", headers := ∅,
          redirected := false, url := "" })
      [("https://db.myzone.com/other",
        { body := Option.some "cached", status := 200, statusText := "OK", headers := ∅,
          redirected := false, url := "" })]
      "submit" Option.none (-1) (-1) =
    ((HttpClient.make "https://db.myzone.com"
        (Option.some { headers := Option.some (∅ : Headers) })).fetchOrigin
      (fun _ _ =>
        { body := Option.some "[]", status := 200, statusText := "OK", headers := ∅,
          redirected := false, url := "" })
      "submit" Option.none,
     [("https://db.myzone.com/other",
       { body := Option.some "cached", status := 200, statusText := "OK", headers := ∅,
         redirected := false, url := "" })]) :=
  fetch_uncacheable_bypasses_cache
    (HttpClient.make "https://db.myzone.com" (Option.some { headers := Option.some (∅ : Headers) }))
    (fun _ _ =>
      { body := Option.some "[]", status := 200, statusText := "OK", headers := ∅,
        redirected := false, url := "" })
    "submit" Option.none (-1) (-1) (by decide) (by decide)
    [("https://db.myzone.com/other",
      { body := Option.some "cached", status := 200, statusText := "OK", headers := ∅,
        redirected := false, url := "" })]

/-- Claim C6: when caching is enabled (not both ttls negative), a hit
returns the stored response unmodified with the store unchanged (and
so independently of the origin transport), while a miss performs the
origin call, attaches the synthesized Cache-control directive, stores
that response under the derived key and returns it. -/
theorem fetch_cache_protocol (c : HttpClient)
    (origin : String → RequestInit → Response) (cache : CacheStore) (path : String)
    (i : Option RequestInit) (cacheTtl staleTtl : Int)
    (hen : ¬(cacheTtl < 0 ∧ staleTtl < 0)) :
    (∀ r : Response, cacheMatch cache (c.cacheKey path i) = Option.some r →
      c.fetch origin cache path i cacheTtl staleTtl = (r, cache)) ∧
    (cacheMatch cache (c.cacheKey path i) = Option.none →
      c.fetch origin cache path i cacheTtl staleTtl =
        (setResponseHeader (c.fetchOrigin origin path i) "Cache-control"
            (HttpClient.cacheHeader cacheTtl staleTtl),
         cachePut cache (c.cacheKey path i)
           (setResponseHeader (c.fetchOrigin origin path i) "Cache-control"
             (HttpClient.cacheHeader cacheTtl staleTtl)))) := by
  have hcond : (decide (cacheTtl < 0) && decide (staleTtl < 0)) = false := by
    rcases Classical.em (cacheTtl < 0) with h1 | h1
    · have h2 : ¬ staleTtl < 0 := fun h2 => hen ⟨h1, h2⟩
      simp [h1, h2]
    · simp [h1]
  constructor
  · intro r hr
    simp [HttpClient.fetch, hcond, hr]
  · intro hr
    simp [HttpClient.fetch, hcond, hr]

/-- Claim C6, witness: a concrete client over an empty store misses,
stores the annotated response under the derived key, and a second call
over the resulting store hits and returns it unchanged. -/
theorem fetch_cache_protocol_witness :
    ((HttpClient.make "https://db.myzone.com"
        (Option.some { headers := Option.some (∅ : Headers) })).fetch
      (fun _ _ =>
        { body := Option.some "[]", status := 200, statusText := "OK", headers := ∅,
          redirected := false, url := "" })
      (∅ : CacheStore) "ping" (Option.some { method := Option.some "GET" }) 0 3 =
      ({ body := Option.some "[]", status := 200, statusText := "OK",
         headers := [("Cache-control",
           HVal.vstr "public, max-age=0, stale-while-revalidate=3")],
         redirected := false, url := "" },
       [("https://db.myzone.com/ping",
         { body := Option.some "[]", status := 200, statusText := "OK",
           headers := [("Cache-control",
             HVal.vstr "public, max-age=0, stale-while-revalidate=3")],
           redirected := false, url := "" })])) ∧
    ((HttpClient.make "https://db.myzone.com"
        (Option.some { headers := Option.some (∅ : Headers) })).fetch
      (fun _ _ =>
        { body := Option.some "[]", status := 200, statusText := "OK", headers := ∅,
          redirected := false, url := "" })
      [("https://db.myzone.com/ping",
        { body := Option.some "stored", status := 200, statusText := "OK", headers := ∅,
          redirected := false, url := "" })]
      "ping" (Option.some { method := Option.some "GET" }) 0 3 =
      ({ body := Option.some "stored", status := 200, statusText := "OK", headers := ∅,
         redirected := false, url := "" },
       [("https://db.myzone.com/ping",
         { body := Option.some "stored", status := 200, statusText := "OK", headers := ∅,
           redirected := false, url := "" })])) := by
  have hmiss := (fetch_cache_protocol
    (HttpClient.make "https://db.myzone.com" (Option.some { headers := Option.some (∅ : Headers) }))
    (fun _ _ =>
      { body := Option.some "[]", status := 200, statusText := "OK", headers := ∅,
        redirected := false, url := "" })
    (∅ : CacheStore) "ping" (Option.some { method := Option.some "GET" }) 0 3
    (by omega)).2
  have hhit := (fetch_cache_protocol
    (HttpClient.make "https://db.myzone.com" (Option.some { headers := Option.some (∅ : Headers) }))
    (fun _ _ =>
      { body := Option.some "[]", status := 200, statusText := "OK", headers := ∅,
        redirected := false, url := "" })
    [("https://db.myzone.com/ping",
      { body := Option.some "stored", status := 200, statusText := "OK", headers := ∅,
        redirected := false, url := "" })]
    "ping" (Option.some { method := Option.some "GET" }) 0 3
    (by omega)).1
  constructor
  · rw [hmiss rfl]
    rfl
  · rw [hhit
      { body := Option.some "stored", status := 200, statusText := "OK", headers := ∅,
        redirected := false, url := "" } rfl]

/-- Claim C9: ping on a constructed connection goes through the caching
fetch layer with the fixed path, a GET initializer and the pair
cacheTtl 0, staleTtl 3; the call is never the uncacheable branch (for
every store state it reads the cache: a hit is returned as stored and
a miss stores the origin response annotated with the directive), the
merged request method is GET, and the directive synthesized for (0, 3)
is "public, max-age=0, stale-while-revalidate=3". -/
theorem ping_caching_policy (p : DbConnectInit) (db : DbConnect)
    (hdb : DbConnect.make p = Except.ok db) (origin : String → RequestInit → Response)
    (cache : CacheStore) :
    db.ping origin cache =
      db.httpClient.fetch origin cache "ping" (Option.some { method := Option.some "GET" }) 0 3 ∧
    (db.httpClient.initMerge (Option.some { method := Option.some "GET" })).method =
      Option.some "GET" ∧
    (∀ r : Response,
      cacheMatch cache (db.httpClient.cacheKey "ping"
        (Option.some { method := Option.some "GET" })) = Option.some r →
      db.ping origin cache = (r, cache)) ∧
    (cacheMatch cache (db.httpClient.cacheKey "ping"
        (Option.some { method := Option.some "GET" })) = Option.none →
      db.ping origin cache =
        (setResponseHeader
            (db.httpClient.fetchOrigin origin "ping" (Option.some { method := Option.some "GET" }))
            "Cache-control" "public, max-age=0, stale-while-revalidate=3",
         cachePut cache
           (db.httpClient.cacheKey "ping" (Option.some { method := Option.some "GET" }))
           (setResponseHeader
             (db.httpClient.fetchOrigin origin "ping" (Option.some { method := Option.some "GET" }))
             "Cache-control" "public, max-age=0, stale-while-revalidate=3"))) ∧
    HttpClient.cacheHeader 0 3 = "public, max-age=0, stale-while-revalidate=3" := by
  have hcm : db.httpClient.init.method = Option.none := by
    cases hcfg : DbConnectCfg.make p with
    | error e => simp [DbConnect.make, hcfg] at hdb
    | ok cfg =>
      simp [DbConnect.make, hcfg] at hdb
      rw [← hdb]
      rfl
  have hcb : db.httpClient.init.body = Option.none := by
    cases hcfg : DbConnectCfg.make p with
    | error e => simp [DbConnect.make, hcfg] at hdb
    | ok cfg =>
      simp [DbConnect.make, hcfg] at hdb
      rw [← hdb]
      rfl
  have hch : ∃ hs0 : Headers, db.httpClient.init.headers = Option.some hs0 := by
    cases hcfg : DbConnectCfg.make p with
    | error e => simp [DbConnect.make, hcfg] at hdb
    | ok cfg =>
      simp [DbConnect.make, hcfg] at hdb
      rw [← hdb]
      exact ⟨_, rfl⟩
  obtain ⟨hs0, hch⟩ := hch
  have hcond : (decide ((0 : Int) < 0) && decide ((3 : Int) < 0)) = false := by decide
  refine ⟨rfl, ?_, ?_, ?_, rfl⟩
  · exact (initMerge_resolved db.httpClient { method := Option.some "GET" } hs0 hch hcm hcb).1
  · intro r hr
    simp [DbConnect.ping, HttpClient.fetch, hcond, hr]
  · intro hr
    simp [DbConnect.ping, HttpClient.fetch, hcond, hr]
    exact ⟨rfl, rfl⟩

/-- Claim C9, witness: a constructed connection over the empty store;
the miss path stores the ping response annotated with the exact
directive string. -/
theorem ping_caching_policy_witness :
    (DbConnect.mk (HttpClient.make "https://db.myzone.com"
        (Option.some { headers := Option.some (∅ : Headers), keepalive := Option.some true, cf := Option.some true }))).ping
      (fun _ _ =>
        { body := Option.some "ok", status := 200, statusText := "OK", headers := ∅,
          redirected := false, url := "" })
      (∅ : CacheStore) =
    ((DbConnect.mk (HttpClient.make "https://db.myzone.com"
        (Option.some { headers := Option.some (∅ : Headers), keepalive := Option.some true, cf := Option.some true }))).httpClient.fetch
      (fun _ _ =>
        { body := Option.some "ok", status := 200, statusText := "OK", headers := ∅,
          redirected := false, url := "" })
      (∅ : CacheStore) "ping" (Option.some { method := Option.some "GET" }) 0 3) ∧
    HttpClient.cacheHeader 0 3 = "public, max-age=0, stale-while-revalidate=3" := by
  have h := ping_caching_policy
    { host := Option.some "db.myzone.com" }
    (DbConnect.mk (HttpClient.make "https://db.myzone.com"
      (Option.some { headers := Option.some (∅ : Headers), keepalive := Option.some true, cf := Option.some true })))
    rfl
    (fun _ _ =>
      { body := Option.some "ok", status := 200, statusText := "OK", headers := ∅,
        redirected := false, url := "" })
    (∅ : CacheStore)
  exact ⟨h.1, h.2.2.2.2⟩
